import Mathlib

/-!
Formal model of `application.js`, the self-profiling process supervisor of the
profile-live-application repository.

The program is a single promise-based entrypoint:

* if `process.env.DEBUG_PROFILE_TIME` is falsy (absent or the empty string),
  the outer promise resolves at once and `require('./server.js')` runs;
* otherwise it spawns `node --prof server.js`, arms
  `setTimeout(() => server.kill('SIGINT'), DEBUG_PROFILE_TIME)`, and on the
  child's `close` event logs, calls `resolve()` (which schedules the
  `require('./server.js')` continuation), then runs `findLatestProfile()`
  (glob `isolate-*`, `fs.stat` each path, sort descending by mtime, take
  `[0].path`), spawns `node --prof-process <path>`, accumulates that child's
  stdout chunks into `output`, and on its `close` logs the report between
  banner lines; errors of the promise chain are caught and logged with
  `console.warn`.

The model below embeds this control flow as a deterministic event trace over a
`World` of external inputs (environment, child-process behaviour, filesystem
answers), following the Node.js event-loop delivery order of the callbacks:
the `close` handler runs to completion (it calls `resolve()` and dispatches
the asynchronous `glob`), then the microtask of the outer promise's `.then`
loads `server.js` in-process, and only afterwards do the glob/stat callbacks
and the post-processor run.
-/

namespace ProfileApp

/-- Signals used with `child.kill`. The code only ever sends `SIGINT`;
`SIGKILL` is listed to state that a forceful kill is never requested. -/
inductive Sig
  | SIGINT
  | SIGKILL
deriving DecidableEq, Repr

/-- Truthiness test of `process.env.DEBUG_PROFILE_TIME` in
`if(!process.env.DEBUG_PROFILE_TIME) return resolve();`: an absent variable is
`undefined` (falsy) and the empty string is falsy; any non-empty string is
truthy. -/
def profilingEnabled : Option String → Bool
  | none => false
  | some s => !(s == "")

/-- One stat-ed artifact candidate, as built by
`fs.stat(path, (err, stat) => ... resolve({ path, stat }))`: the path together
with its last-modified timestamp (`stat.mtime`, in milliseconds). -/
structure Candidate where
  path : String
  mtime : Nat
deriving DecidableEq, Repr

/-- Insertion step of a stable descending sort by `mtime`, modelling
`paths.sort((a, b) => b.stat.mtime - a.stat.mtime)`: a candidate is placed
before the first element whose timestamp does not exceed it is false, i.e.
elements with equal timestamps keep their listing order. -/
def insertDesc (c : Candidate) : List Candidate → List Candidate
  | [] => [c]
  | d :: ds => if d.mtime ≤ c.mtime then c :: d :: ds else d :: insertDesc c ds

/-- Stable descending sort by last-modified timestamp, modelling the
`Array.prototype.sort` call with comparator `b.stat.mtime - a.stat.mtime`. -/
def sortByMtimeDesc (l : List Candidate) : List Candidate :=
  l.foldr insertDesc []

/-- Failure taxonomy of one profiling session's artifact discovery, named after
the spec's abstract errors. `NotFoundError` is the failure raised on an empty
match set: the code evaluates `paths.sort(...)[0].path`, and on an empty array
`[0]` is `undefined`, so reading `.path` throws and rejects the promise chain.
`IOError` stands for a `glob` callback error. -/
inductive SessionError
  | NotFoundError
  | IOError
deriving DecidableEq, Repr

/-- Final step of `findLatestProfile`:
`.then((paths) => paths.sort((a, b) => b.stat.mtime - a.stat.mtime)[0].path)`.
Sorting descending by mtime and indexing `[0]` selects a most-recent
candidate; on an empty candidate list the `[0].path` access throws, which the
model reports as `NotFoundError`. -/
def selectLatest (cands : List Candidate) : Except SessionError String :=
  match sortByMtimeDesc cands with
  | [] => .error .NotFoundError
  | c :: _ => .ok c.path

/-- External inputs of one supervisor execution: the environment variable, how
the spawned children and the filesystem behave. `timerFiresEarly` records
whether the `setTimeout` deadline elapses before the profiled child's `close`
event (the normal case) or only afterwards. `globResult` is the answer of
`glob('isolate-*', cb)`; `mtimeOf` is the `stat.mtime` answer of `fs.stat` per
path; `postSpawnOk` tells whether `spawn('node', ['--prof-process', path])`
can launch the binary; `postStdout`/`postStderr` are the chunk sequences the
post-processor child emits on its two streams before closing. -/
structure World where
  debugProfileTime : Option String
  serverCloseFires : Bool
  timerFiresEarly : Bool
  globResult : Except Unit (List String)
  mtimeOf : String → Nat
  postSpawnOk : Bool
  postStdout : List String
  postStderr : List String

/-- Candidates produced by stat-ing every glob match, modelling
`Promise.all(paths.map((path) => ... fs.stat ... ({ path, stat })))`. -/
def candidatesOf (w : World) (paths : List String) : List Candidate :=
  paths.map (fun p => { path := p, mtime := w.mtimeOf p })

/-- The `findLatestProfile()` function of `application.js`: glob for
`isolate-*`, stat every match, sort descending by mtime and take the first
path. A glob error rejects (the spec's `IOError`); an empty match set fails
with the spec's `NotFoundError` (see `selectLatest`). -/
def findLatestProfile (w : World) : Except SessionError String :=
  match w.globResult with
  | .error _ => .error .IOError
  | .ok paths => selectLatest (candidatesOf w paths)

set_option linter.unusedVariables false in
/-- The accumulator of the post-processing step: the code runs
`let output = ''; profile.stdout.on('data', (chunk) => output += chunk);`.
Only `profile.stdout` has a data handler — no handler is ever attached to
`profile.stderr` — so the buffer is the left fold of string append over the
stdout chunks alone and the stderr chunks do not reach it. -/
def capturedReport (stdoutChunks stderrChunks : List String) : String :=
  stdoutChunks.foldl (fun out c => out ++ c) ""

/-- The Timed Terminator line
`setTimeout(() => server.kill('SIGINT'), process.env.DEBUG_PROFILE_TIME)`:
it schedules exactly one graceful-termination request, a `SIGINT`, to fire
after the configured number of milliseconds; `setTimeout` with delay `0`
fires as soon as the event loop turns, never "never". -/
def timedTerminator (durationMillis : Nat) : List (Nat × Sig) :=
  [(durationMillis, Sig.SIGINT)]

/-- Observable events of one supervisor execution, in event-loop delivery
order. `resolveOuter`/`rejectOuter` are settlements of the entrypoint's outer
promise; `requireServer` is the in-process `require('./server.js')`;
`warnLogged` is `console.warn('Error processing profile', err)` from the
`.catch`; `uncaughtErrorCrash` is a process-terminating unhandled `'error'`
event. -/
inductive Event
  | spawnProfiledChild
  | killSignal (s : Sig)
  | serverClose
  | resolveOuter
  | rejectOuter
  | requireServer
  | spawnPostProcessor (path : String)
  | stdoutChunk (c : String)
  | reportEmitted (report : String)
  | warnLogged
  | uncaughtErrorCrash
deriving DecidableEq, Repr

/-- Events of the post-processing promise, given the located artifact path.
When the spawn succeeds, the chunks arrive and `profile.on('close', () =>
resolve(output))` hands the buffer to the `.then` that logs the report between
the banner lines (`reportEmitted`). When the binary cannot be launched, Node
emits an `'error'` event on the child; the code registered its rejection
handler as `profile.on('err', reject)` — the event name `'err'`, which Node
never emits — so the `'error'` event has no listener, the emitter throws, and
the supervisor process crashes; the `.catch` never runs. -/
def postProcessEvents (w : World) (path : String) : List Event :=
  if w.postSpawnOk then
    Event.spawnPostProcessor path ::
      (w.postStdout.map Event.stdoutChunk ++
        [Event.reportEmitted (capturedReport w.postStdout w.postStderr)])
  else
    [Event.spawnPostProcessor path, Event.uncaughtErrorCrash]

/-- Events after the glob/stat callbacks run: a locator failure (glob error,
or the `[0].path` throw on zero matches) rejects the chain and the `.catch`
logs a warning; otherwise the post-processor is spawned on the located path. -/
def sessionAfterGlob (w : World) : List Event :=
  match findLatestProfile w with
  | .error _ => [Event.warnLogged]
  | .ok p => postProcessEvents w p

/-- The `server.on('close', ...)` handler and its continuations, in delivery
order: the handler logs, calls `resolve()` and starts `findLatestProfile()`
(dispatching the asynchronous glob), then returns; the outer promise's
`.then(() => require('./server.js'))` microtask runs next, loading the wrapped
service in-process; only afterwards do the glob/stat callbacks fire. -/
def closeEvents (w : World) : List Event :=
  Event.serverClose :: Event.resolveOuter :: Event.requireServer ::
    sessionAfterGlob w

/-- Whether the execution ends in the unhandled-`'error'` crash (see
`postProcessEvents`): only when the close handler ran, the locator succeeded
and the post-processor spawn failed. -/
def crashes (w : World) : Bool :=
  w.serverCloseFires &&
    (match findLatestProfile w with
     | .error _ => false
     | .ok _ => !w.postSpawnOk)

/-- The `SIGINT` kill requests issued before the `close` handler: the
`setTimeout` callback when the deadline elapses while the child still runs. -/
def earlyKill (w : World) : List Event :=
  if w.timerFiresEarly then [Event.killSignal Sig.SIGINT] else []

/-- The `SIGINT` kill request of a late-firing timer: if the child closed
before the deadline, the timeout still fires afterwards and `server.kill` is a
no-op on the exited child — unless the process already crashed. -/
def lateKill (w : World) : List Event :=
  if !w.timerFiresEarly && !(crashes w) then [Event.killSignal Sig.SIGINT]
  else []

/-- The full event trace of one execution of `application.js` over the given
world. Disabled profiling resolves the outer promise at once and loads the
wrapped service; enabled profiling spawns the profiled child and the rest is
driven by the timer, the `close` event and the post-processing chain. -/
def run (w : World) : List Event :=
  if profilingEnabled w.debugProfileTime then
    Event.spawnProfiledChild ::
      (earlyKill w ++
        (if w.serverCloseFires then closeEvents w else []) ++ lateKill w)
  else
    [Event.resolveOuter, Event.requireServer]

/-- Strict temporal precedence inside a trace: some occurrence of `a` lies
strictly before some occurrence of `b`. -/
def occursBefore (a b : Event) (tr : List Event) : Prop :=
  ∃ l1 l2 l3, tr = l1 ++ a :: l2 ++ b :: l3

/-- Concatenation of chunks in arrival order, the spec's description of the
Captured Report. -/
def concatArrival : List String → String
  | [] => ""
  | c :: cs => c ++ concatArrival cs

/-- Concrete world of the spec's end-to-end scenario: profiling enabled for
30000 ms, the timer fires and the profiled child then closes, one artifact
`isolate-1.log` exists, and the post-processor launches and emits the single
chunk `REPORT-OK`. -/
def exampleWorld : World :=
  { debugProfileTime := some "30000", serverCloseFires := true,
    timerFiresEarly := true, globResult := .ok ["isolate-1.log"],
    mtimeOf := fun _ => 1, postSpawnOk := true,
    postStdout := ["REPORT-OK"], postStderr := [] }

/-! Helper lemmas about the sort, the report accumulator and the trace. -/

theorem mem_insertDesc (a c : Candidate) :
    ∀ l : List Candidate, a ∈ insertDesc c l ↔ a = c ∨ a ∈ l := by
  intro l
  induction l with
  | nil => simp [insertDesc]
  | cons d ds ih =>
    by_cases h : d.mtime ≤ c.mtime
    · simp [insertDesc, h]
    · simp only [insertDesc, if_neg h, List.mem_cons, ih]
      tauto

theorem mem_sortByMtimeDesc (a : Candidate) :
    ∀ l : List Candidate, a ∈ sortByMtimeDesc l ↔ a ∈ l := by
  intro l
  induction l with
  | nil => simp [sortByMtimeDesc]
  | cons x xs ih =>
    simp only [sortByMtimeDesc, List.foldr] at ih ⊢
    rw [mem_insertDesc, ih]
    simp

theorem sortByMtimeDesc_head_max :
    ∀ (l : List Candidate) (c : Candidate) (rest : List Candidate),
      sortByMtimeDesc l = c :: rest → ∀ d ∈ l, d.mtime ≤ c.mtime := by
  intro l
  induction l with
  | nil => intro c rest h; simp [sortByMtimeDesc] at h
  | cons x xs ih =>
    intro c rest h d hd
    have hx : sortByMtimeDesc (x :: xs) = insertDesc x (sortByMtimeDesc xs) :=
      rfl
    rw [hx] at h
    cases h2 : sortByMtimeDesc xs with
    | nil =>
      rw [h2] at h
      simp only [insertDesc] at h
      rcases List.cons_eq_cons.mp h with ⟨hc, _⟩
      rcases List.mem_cons.mp hd with hdx | hdxs
      · rw [hdx, ← hc]
      · exfalso
        have : d ∈ sortByMtimeDesc xs := (mem_sortByMtimeDesc d xs).mpr hdxs
        rw [h2] at this
        exact List.not_mem_nil d this
    | cons y ys =>
      rw [h2] at h
      by_cases hxy : y.mtime ≤ x.mtime
      · simp only [insertDesc, if_pos hxy] at h
        rcases List.cons_eq_cons.mp h with ⟨hc, _⟩
        rcases List.mem_cons.mp hd with hdx | hdxs
        · rw [hdx, ← hc]
        · have := ih y ys h2 d hdxs
          rw [← hc]
          exact le_trans this hxy
      · simp only [insertDesc, if_neg hxy] at h
        rcases List.cons_eq_cons.mp h with ⟨hc, _⟩
        rcases List.mem_cons.mp hd with hdx | hdxs
        · rw [hdx, ← hc]
          exact le_of_lt (lt_of_not_le hxy)
        · rw [← hc]
          exact ih y ys h2 d hdxs

theorem selectLatest_spec (l : List Candidate) (hl : l ≠ []) :
    ∃ c, c ∈ l ∧ selectLatest l = .ok c.path ∧ ∀ d ∈ l, d.mtime ≤ c.mtime := by
  cases h : sortByMtimeDesc l with
  | nil =>
    exfalso
    rcases List.exists_mem_of_ne_nil l hl with ⟨a, ha⟩
    have : a ∈ sortByMtimeDesc l := (mem_sortByMtimeDesc a l).mpr ha
    rw [h] at this
    exact List.not_mem_nil a this
  | cons c rest =>
    refine ⟨c, ?_, ?_, sortByMtimeDesc_head_max l c rest h⟩
    · exact (mem_sortByMtimeDesc c l).mp (h ▸ List.mem_cons_self c rest)
    · simp [selectLatest, h]

theorem foldl_append_concat :
    ∀ (l : List String) (s : String),
      l.foldl (fun out c => out ++ c) s = s ++ concatArrival l := by
  intro l
  induction l with
  | nil => intro s; simp [concatArrival, String.append_empty]
  | cons c cs ih =>
    intro s
    simp only [List.foldl, concatArrival, ih (s ++ c), String.append_assoc]

theorem capturedReport_eq_concatArrival (out err : List String) :
    capturedReport out err = concatArrival out := by
  rw [capturedReport, foldl_append_concat, String.empty_append]

theorem concatArrival_append (l1 l2 : List String) :
    concatArrival (l1 ++ l2) = concatArrival l1 ++ concatArrival l2 := by
  induction l1 with
  | nil => simp [concatArrival, String.empty_append]
  | cons c cs ih =>
    simp only [List.cons_append, concatArrival, List.append_eq, ih,
      String.append_assoc]

theorem run_enabled_close (w : World)
    (hen : profilingEnabled w.debugProfileTime = true)
    (hcl : w.serverCloseFires = true) :
    run w = (Event.spawnProfiledChild :: earlyKill w) ++
      (Event.serverClose :: Event.resolveOuter :: Event.requireServer ::
        sessionAfterGlob w) ++ lateKill w := by
  simp [run, hen, hcl, closeEvents, List.append_assoc]

theorem mem_earlyKill (w : World) (e : Event) (h : e ∈ earlyKill w) :
    e = Event.killSignal Sig.SIGINT := by
  unfold earlyKill at h
  cases hw : w.timerFiresEarly <;> rw [hw] at h
  · simp at h
  · simpa using h

theorem mem_lateKill (w : World) (e : Event) (h : e ∈ lateKill w) :
    e = Event.killSignal Sig.SIGINT := by
  unfold lateKill at h
  cases hw : (!w.timerFiresEarly && !(crashes w)) <;> rw [hw] at h
  · simp at h
  · simpa using h

theorem mem_run_no_close (w : World)
    (hen : profilingEnabled w.debugProfileTime = true)
    (hcl : w.serverCloseFires = false) (e : Event) (h : e ∈ run w) :
    e = Event.spawnProfiledChild ∨ e = Event.killSignal Sig.SIGINT := by
  unfold run at h
  rw [hen, hcl] at h
  simp only [if_true, Bool.false_eq_true, if_false, List.append_nil,
    List.mem_cons, List.mem_append] at h
  rcases h with h | h | h
  · exact Or.inl h
  · exact Or.inr (mem_earlyKill w e h)
  · exact Or.inr (mem_lateKill w e h)

theorem sessionAfterGlob_eq_of_error (w : World) (err : SessionError)
    (hf : findLatestProfile w = .error err) :
    sessionAfterGlob w = [Event.warnLogged] := by
  unfold sessionAfterGlob
  rw [hf]

theorem sessionAfterGlob_eq_of_ok (w : World) (p0 : String)
    (hf : findLatestProfile w = .ok p0) :
    sessionAfterGlob w = postProcessEvents w p0 := by
  unfold sessionAfterGlob
  rw [hf]

theorem postProcessEvents_eq_of_ok (w : World) (p : String)
    (hs : w.postSpawnOk = true) :
    postProcessEvents w p = Event.spawnPostProcessor p ::
      (w.postStdout.map Event.stdoutChunk ++
        [Event.reportEmitted (capturedReport w.postStdout w.postStderr)]) := by
  unfold postProcessEvents
  rw [hs]
  simp

theorem postProcessEvents_eq_of_fail (w : World) (p : String)
    (hs : w.postSpawnOk = false) :
    postProcessEvents w p =
      [Event.spawnPostProcessor p, Event.uncaughtErrorCrash] := by
  unfold postProcessEvents
  rw [hs]
  simp

theorem mem_sessionAfterGlob_cases (w : World) (e : Event)
    (h : e ∈ sessionAfterGlob w) :
    e = Event.warnLogged ∨ (∃ p, e = Event.spawnPostProcessor p) ∨
      (∃ c, e = Event.stdoutChunk c) ∨ (∃ r, e = Event.reportEmitted r) ∨
      e = Event.uncaughtErrorCrash := by
  cases hf : findLatestProfile w with
  | error err =>
    rw [sessionAfterGlob_eq_of_error w err hf] at h
    simp at h
    exact Or.inl h
  | ok p0 =>
    rw [sessionAfterGlob_eq_of_ok w p0 hf] at h
    cases hs : w.postSpawnOk
    · rw [postProcessEvents_eq_of_fail w p0 hs] at h
      rcases List.mem_cons.mp h with h | h
      · exact Or.inr (Or.inl ⟨p0, h⟩)
      rcases List.mem_cons.mp h with h | h
      · exact Or.inr (Or.inr (Or.inr (Or.inr h)))
      · exact absurd h (List.not_mem_nil e)
    · rw [postProcessEvents_eq_of_ok w p0 hs] at h
      rcases List.mem_cons.mp h with h | h
      · exact Or.inr (Or.inl ⟨p0, h⟩)
      rcases List.mem_append.mp h with h | h
      · rcases List.mem_map.mp h with ⟨c, _, hc⟩
        exact Or.inr (Or.inr (Or.inl ⟨c, hc.symm⟩))
      rcases List.mem_cons.mp h with h | h
      · exact Or.inr (Or.inr (Or.inr (Or.inl ⟨_, h⟩)))
      · exact absurd h (List.not_mem_nil e)

theorem mem_run_close_cases (w : World)
    (hen : profilingEnabled w.debugProfileTime = true)
    (hcl : w.serverCloseFires = true) (e : Event) (h : e ∈ run w) :
    e = Event.spawnProfiledChild ∨ e = Event.killSignal Sig.SIGINT ∨
      e = Event.serverClose ∨ e = Event.resolveOuter ∨
      e = Event.requireServer ∨ e ∈ sessionAfterGlob w := by
  rw [run_enabled_close w hen hcl] at h
  rcases List.mem_append.mp h with h12 | hlk
  · rcases List.mem_append.mp h12 with hA | hB
    · rcases List.mem_cons.mp hA with h1 | h1
      · exact Or.inl h1
      · exact Or.inr (Or.inl (mem_earlyKill w e h1))
    · rcases List.mem_cons.mp hB with h1 | h1
      · exact Or.inr (Or.inr (Or.inl h1))
      rcases List.mem_cons.mp h1 with h2 | h2
      · exact Or.inr (Or.inr (Or.inr (Or.inl h2)))
      rcases List.mem_cons.mp h2 with h3 | h3
      · exact Or.inr (Or.inr (Or.inr (Or.inr (Or.inl h3))))
      · exact Or.inr (Or.inr (Or.inr (Or.inr (Or.inr h3))))
  · exact Or.inr (Or.inl (mem_lateKill w e hlk))

theorem sessionAfterGlob_spawnPost (w : World) (p : String)
    (h : Event.spawnPostProcessor p ∈ sessionAfterGlob w) :
    ∃ rest, sessionAfterGlob w = Event.spawnPostProcessor p :: rest := by
  cases hf : findLatestProfile w with
  | error err =>
    rw [sessionAfterGlob_eq_of_error w err hf] at h
    simp at h
  | ok p0 =>
    rw [sessionAfterGlob_eq_of_ok w p0 hf] at h ⊢
    cases hs : w.postSpawnOk
    · rw [postProcessEvents_eq_of_fail w p0 hs] at h ⊢
      rcases List.mem_cons.mp h with h1 | h1
      · cases h1
        exact ⟨_, rfl⟩
      · simp at h1
    · rw [postProcessEvents_eq_of_ok w p0 hs] at h ⊢
      rcases List.mem_cons.mp h with h1 | h1
      · cases h1
        exact ⟨_, rfl⟩
      · exfalso
        rcases List.mem_append.mp h1 with h2 | h2
        · rcases List.mem_map.mp h2 with ⟨c, _, hc⟩
          simp at hc
        · simp at h2

theorem sessionAfterGlob_report (w : World) (r : String)
    (h : Event.reportEmitted r ∈ sessionAfterGlob w) :
    ∃ p0, sessionAfterGlob w = Event.spawnPostProcessor p0 ::
      (w.postStdout.map Event.stdoutChunk ++ [Event.reportEmitted r]) := by
  cases hf : findLatestProfile w with
  | error err =>
    rw [sessionAfterGlob_eq_of_error w err hf] at h
    simp at h
  | ok p0 =>
    rw [sessionAfterGlob_eq_of_ok w p0 hf] at h ⊢
    cases hs : w.postSpawnOk
    · rw [postProcessEvents_eq_of_fail w p0 hs] at h
      simp at h
    · rw [postProcessEvents_eq_of_ok w p0 hs] at h ⊢
      rcases List.mem_cons.mp h with h1 | h1
      · simp at h1
      rcases List.mem_append.mp h1 with h2 | h2
      · rcases List.mem_map.mp h2 with ⟨c, _, hc⟩
        simp at hc
      rcases List.mem_cons.mp h2 with h3 | h3
      · cases h3
        exact ⟨p0, rfl⟩
      · simp at h3

/-! Claim theorems. -/

/-- C1, counterexample: in the concrete successful session of `exampleWorld`,
the in-process service start (`requireServer`) occurs strictly before the
report's capture and emission (`reportEmitted`), and the session neither
warns nor crashes — so the wrapped service is loaded before the session
reaches Done (and not after a Failed end), refuting the claim that the
in-process start happens only after Done or Failed. -/
theorem c1_counterexample :
    occursBefore Event.requireServer (Event.reportEmitted "REPORT-OK")
      (run exampleWorld) ∧
    Event.warnLogged ∉ run exampleWorld ∧
    Event.uncaughtErrorCrash ∉ run exampleWorld := by
  refine ⟨⟨[Event.spawnProfiledChild, Event.killSignal Sig.SIGINT,
    Event.serverClose, Event.resolveOuter],
    [Event.spawnPostProcessor "isolate-1.log", Event.stdoutChunk "REPORT-OK"],
    [], by decide⟩, by decide, by decide⟩

/-- C1, amended: with profiling enabled, the in-process service start happens
only after the profiled child's close notification has been observed, and the
report's capture and emission happen only after the in-process service start —
the service does not wait for the session to reach Done or Failed. -/
theorem c1_service_start_after_close_before_report (w : World) :
    (profilingEnabled w.debugProfileTime = true →
      Event.requireServer ∈ run w →
      occursBefore Event.serverClose Event.requireServer (run w)) ∧
    (∀ r, Event.reportEmitted r ∈ run w →
      occursBefore Event.requireServer (Event.reportEmitted r) (run w)) := by
  constructor
  · intro hen hreq
    cases hcl : w.serverCloseFires
    · exfalso
      rcases mem_run_no_close w hen hcl Event.requireServer hreq with h | h <;>
        simp at h
    · refine ⟨Event.spawnProfiledChild :: earlyKill w, [Event.resolveOuter],
        sessionAfterGlob w ++ lateKill w, ?_⟩
      rw [run_enabled_close w hen hcl]
      simp [List.append_assoc]
  · intro r hrep
    cases hen : profilingEnabled w.debugProfileTime
    · exfalso
      unfold run at hrep
      rw [hen] at hrep
      simp at hrep
    · cases hcl : w.serverCloseFires
      · exfalso
        rcases mem_run_no_close w hen hcl _ hrep with h | h <;> simp at h
      · have hsag : Event.reportEmitted r ∈ sessionAfterGlob w := by
          rcases mem_run_close_cases w hen hcl _ hrep with
            h | h | h | h | h | h <;> first | (exfalso; simp at h) | exact h
        rcases sessionAfterGlob_report w r hsag with ⟨p0, hshape⟩
        refine ⟨(Event.spawnProfiledChild :: earlyKill w) ++
          [Event.serverClose, Event.resolveOuter],
          Event.spawnPostProcessor p0 :: w.postStdout.map Event.stdoutChunk,
          lateKill w, ?_⟩
        rw [run_enabled_close w hen hcl, hshape]
        simp [List.append_assoc]

/-- C1, witness: the amended theorem applied to the example world. -/
theorem c1_witness :
    occursBefore Event.serverClose Event.requireServer (run exampleWorld) ∧
    occursBefore Event.requireServer (Event.reportEmitted "REPORT-OK")
      (run exampleWorld) :=
  ⟨(c1_service_start_after_close_before_report exampleWorld).1 (by decide)
      (by decide),
    (c1_service_start_after_close_before_report exampleWorld).2 "REPORT-OK"
      (by decide)⟩

/-- C2: for every world and every path, the post-processor's spawn event
occurs strictly after the profiled child's close notification — the spawn
happens inside the `close` handler's continuation, never on the timer expiry
alone. -/
theorem c2_postprocessor_spawned_after_close (w : World) (p : String)
    (h : Event.spawnPostProcessor p ∈ run w) :
    occursBefore Event.serverClose (Event.spawnPostProcessor p) (run w) := by
  cases hen : profilingEnabled w.debugProfileTime
  · exfalso
    unfold run at h
    rw [hen] at h
    simp at h
  · cases hcl : w.serverCloseFires
    · exfalso
      rcases mem_run_no_close w hen hcl _ h with h1 | h1 <;> simp at h1
    · have hsag : Event.spawnPostProcessor p ∈ sessionAfterGlob w := by
        rcases mem_run_close_cases w hen hcl _ h with
          h1 | h1 | h1 | h1 | h1 | h1 <;>
          first | (exfalso; simp at h1) | exact h1
      rcases sessionAfterGlob_spawnPost w p hsag with ⟨rest, hshape⟩
      refine ⟨Event.spawnProfiledChild :: earlyKill w,
        [Event.resolveOuter, Event.requireServer], rest ++ lateKill w, ?_⟩
      rw [run_enabled_close w hen hcl, hshape]
      simp [List.append_assoc]

/-- C2, witness: the theorem applied to the example world's concrete
post-processor spawn. -/
theorem c2_witness :
    occursBefore Event.serverClose
      (Event.spawnPostProcessor "isolate-1.log") (run exampleWorld) :=
  c2_postprocessor_spawned_after_close exampleWorld "isolate-1.log"
    (by decide)

/-- C3: evaluation at the failing input — profiling enabled, one artifact
found, but the post-processor binary cannot be launched. The code's rejection
handler is registered as `profile.on('err', reject)`, while Node emits the
`'error'` event for a failed spawn; the event is therefore unhandled, the
emitter throws, and the supervisor process crashes with no warning logged —
contradicting the documented intent that session errors are caught and logged
and never terminate the supervisor. -/
theorem c3_spawn_error_crashes_supervisor :
    Event.uncaughtErrorCrash ∈ run { exampleWorld with postSpawnOk := false } ∧
    Event.warnLogged ∉ run { exampleWorld with postSpawnOk := false } ∧
    Event.requireServer ∈ run { exampleWorld with postSpawnOk := false } :=
  ⟨by decide, by decide, by decide⟩

/-- C4: when zero files match the glob after the profiled child exits, the
Artifact Locator fails with `NotFoundError` (the `[0].path` access on the
empty sorted array throws), the `.catch` logs a warning, and the trace
contains no post-processor spawn and no report. -/
theorem c4_no_match_fails_session (w : World)
    (hen : profilingEnabled w.debugProfileTime = true)
    (hcl : w.serverCloseFires = true)
    (hg : w.globResult = .ok []) :
    findLatestProfile w = .error SessionError.NotFoundError ∧
    Event.warnLogged ∈ run w ∧
    (∀ p, Event.spawnPostProcessor p ∉ run w) ∧
    (∀ r, Event.reportEmitted r ∉ run w) := by
  have hf : findLatestProfile w = .error SessionError.NotFoundError := by
    unfold findLatestProfile
    rw [hg]
    rfl
  have hsag : sessionAfterGlob w = [Event.warnLogged] :=
    sessionAfterGlob_eq_of_error w SessionError.NotFoundError hf
  refine ⟨hf, ?_, ?_, ?_⟩
  · rw [run_enabled_close w hen hcl, hsag]
    simp
  · intro p hp
    rcases mem_run_close_cases w hen hcl _ hp with h | h | h | h | h | h <;>
      first | simp at h | (rw [hsag] at h; simp at h)
  · intro r hr
    rcases mem_run_close_cases w hen hcl _ hr with h | h | h | h | h | h <;>
      first | simp at h | (rw [hsag] at h; simp at h)

/-- C4, witness: the theorem applied to a world whose glob matches zero
files. -/
theorem c4_witness :
    findLatestProfile { exampleWorld with globResult := .ok [] } =
      .error SessionError.NotFoundError ∧
    Event.warnLogged ∈ run { exampleWorld with globResult := .ok [] } ∧
    (∀ p, Event.spawnPostProcessor p ∉
      run { exampleWorld with globResult := .ok [] }) ∧
    (∀ r, Event.reportEmitted r ∉
      run { exampleWorld with globResult := .ok [] }) :=
  c4_no_match_fails_session { exampleWorld with globResult := .ok [] }
    (by decide) (by decide) rfl

/-- C5, counterexample: with no stdout chunks and the single stderr chunk
`"B"`, the Captured Report is the empty string, and no string of the form
`s ++ "B" ++ t` is empty — so the stderr chunk was not appended to the
buffer, refuting the claim that every chunk of both streams is captured. -/
theorem c5_counterexample :
    capturedReport [] ["B"] = "" ∧ ∀ s t : String, "" ≠ s ++ "B" ++ t := by
  refine ⟨rfl, ?_⟩
  intro s t h
  have hlen := congrArg String.length h
  rw [String.length_append, String.length_append, String.length_empty] at hlen
  have hb : "B".length = 1 := rfl
  omega

/-- C5, amended: under the accumulate-to-buffer policy, every chunk of the
post-processor child's standard output is appended to the Captured Report
buffer, while standard-error chunks are not captured: the report is
independent of the stderr chunk sequence. -/
theorem c5_stdout_chunks_captured_stderr_dropped (out err err' : List String) :
    capturedReport out err = capturedReport out err' ∧
    (∀ pre c post, out = pre ++ c :: post →
      ∃ s t, capturedReport out err = s ++ c ++ t) := by
  constructor
  · rw [capturedReport_eq_concatArrival, capturedReport_eq_concatArrival]
  · intro pre c post hout
    refine ⟨concatArrival pre, concatArrival post, ?_⟩
    rw [capturedReport_eq_concatArrival, hout, concatArrival_append]
    simp [concatArrival, String.append_assoc]

/-- C5, witness: the amended theorem applied to concrete chunk lists, showing
the stdout chunk `CD` appears in the report. -/
theorem c5_witness :
    ∃ s t, capturedReport ["AB", "CD"] ["X"] = s ++ "CD" ++ t :=
  (c5_stdout_chunks_captured_stderr_dropped ["AB", "CD"] ["X"] []).2
    ["AB"] "CD" [] rfl

/-- C6: for every non-empty candidate list the Artifact Locator returns the
path of a candidate whose last-modified timestamp is greatest; ties are broken
deterministically in favour of the first-encountered candidate, and on the
candidates A(t=10), B(t=30), C(t=20) it returns B. -/
theorem c6_most_recent_selection (l : List Candidate) (hl : l ≠ []) :
    (∃ c, c ∈ l ∧ selectLatest l = .ok c.path ∧ ∀ d ∈ l, d.mtime ≤ c.mtime) ∧
    selectLatest [⟨"A", 10⟩, ⟨"B", 30⟩, ⟨"C", 20⟩] = .ok "B" ∧
    selectLatest [⟨"X", 5⟩, ⟨"Y", 5⟩] = .ok "X" :=
  ⟨selectLatest_spec l hl, rfl, rfl⟩

/-- C6, witness: the theorem applied to the concrete candidate list of the
spec's P3 example. -/
theorem c6_witness :
    (∃ c, c ∈ ([⟨"A", 10⟩, ⟨"B", 30⟩, ⟨"C", 20⟩] : List Candidate) ∧
      selectLatest [⟨"A", 10⟩, ⟨"B", 30⟩, ⟨"C", 20⟩] = .ok c.path ∧
      ∀ d ∈ ([⟨"A", 10⟩, ⟨"B", 30⟩, ⟨"C", 20⟩] : List Candidate),
        d.mtime ≤ c.mtime) ∧
    selectLatest [⟨"A", 10⟩, ⟨"B", 30⟩, ⟨"C", 20⟩] = .ok "B" ∧
    selectLatest [⟨"X", 5⟩, ⟨"Y", 5⟩] = .ok "X" :=
  c6_most_recent_selection [⟨"A", 10⟩, ⟨"B", 30⟩, ⟨"C", 20⟩] (by decide)

/-- C7: the Captured Report is the concatenation, in arrival order, of the
standard-output chunks the post-processor emitted before terminating; chunks
`AB`, `CD`, `EF` yield `ABCDEF`. -/
theorem c7_report_capture_fidelity (out err : List String) :
    capturedReport out err = concatArrival out ∧
    capturedReport ["AB", "CD", "EF"] [] = "ABCDEF" :=
  ⟨capturedReport_eq_concatArrival out err, by decide⟩

/-- C8: whenever the profiling toggle variable is absent or empty, the run
trace is exactly the immediate resolution followed by the in-process service
start, and no child process is ever spawned. -/
theorem c8_disabled_fast_path (w : World)
    (h : w.debugProfileTime = none ∨ w.debugProfileTime = some "") :
    run w = [Event.resolveOuter, Event.requireServer] ∧
    Event.spawnProfiledChild ∉ run w ∧
    (∀ p, Event.spawnPostProcessor p ∉ run w) := by
  have hen : profilingEnabled w.debugProfileTime = false := by
    rcases h with h | h <;> rw [h] <;> rfl
  have hrun : run w = [Event.resolveOuter, Event.requireServer] := by
    unfold run
    rw [hen]
    simp
  refine ⟨hrun, by rw [hrun]; simp, fun p => by rw [hrun]; simp⟩

/-- C8, witness: the theorem applied to a world with the variable absent. -/
theorem c8_witness :
    run { exampleWorld with debugProfileTime := none } =
      [Event.resolveOuter, Event.requireServer] ∧
    Event.spawnProfiledChild ∉
      run { exampleWorld with debugProfileTime := none } ∧
    (∀ p, Event.spawnPostProcessor p ∉
      run { exampleWorld with debugProfileTime := none }) :=
  c8_disabled_fast_path { exampleWorld with debugProfileTime := none }
    (Or.inl rfl)

/-- C9: the `setTimeout` line schedules exactly one graceful-termination
request, a `SIGINT` (never a forceful `SIGKILL`), after the configured number
of milliseconds; a configured duration of 0 schedules it at time 0 —
immediately, not never — and every kill request any run of the program ever
issues is a `SIGINT`. -/
theorem c9_zero_duration_kill (n : Nat) :
    timedTerminator 0 = [(0, Sig.SIGINT)] ∧
    timedTerminator n = [(n, Sig.SIGINT)] ∧
    (timedTerminator n).length = 1 ∧
    (∀ (w : World) (s : Sig), Event.killSignal s ∈ run w →
      s = Sig.SIGINT) := by
  refine ⟨rfl, rfl, rfl, ?_⟩
  intro w s h
  cases hen : profilingEnabled w.debugProfileTime
  · exfalso
    unfold run at h
    rw [hen] at h
    simp at h
  · cases hcl : w.serverCloseFires
    · rcases mem_run_no_close w hen hcl _ h with h1 | h1
      · simp at h1
      · injection h1 with h2
    · rcases mem_run_close_cases w hen hcl _ h with h1 | h1 | h1 | h1 | h1 | h1
      · simp at h1
      · injection h1 with h2
      · simp at h1
      · simp at h1
      · simp at h1
      · exfalso
        rcases mem_sessionAfterGlob_cases w _ h1 with
          h2 | ⟨p, h2⟩ | ⟨c, h2⟩ | ⟨r, h2⟩ | h2 <;> simp at h2

/-- C9, witness: the theorem applied at duration 0 and at the concrete kill
event of the example run. -/
theorem c9_witness :
    timedTerminator 0 = [(0, Sig.SIGINT)] ∧ Sig.SIGINT = Sig.SIGINT :=
  ⟨(c9_zero_duration_kill 0).1,
    (c9_zero_duration_kill 0).2.2.2 exampleWorld Sig.SIGINT (by decide)⟩

/-- C10: the entrypoint's outer promise can only resolve, never reject: no
run trace contains a rejection; `resolve` is called exactly once except when
profiling is enabled and the profiled child never closes (in which case it is
still never rejected); and the in-process service load occurs exactly when
the promise resolves. -/
theorem c10_outer_promise_only_resolves (w : World) :
    Event.rejectOuter ∉ run w ∧
    (run w).count Event.resolveOuter =
      (if profilingEnabled w.debugProfileTime && !w.serverCloseFires then 0
       else 1) ∧
    (Event.resolveOuter ∈ run w ↔ Event.requireServer ∈ run w) := by
  cases hen : profilingEnabled w.debugProfileTime
  · have hrun : run w = [Event.resolveOuter, Event.requireServer] := by
      unfold run
      rw [hen]
      simp
    rw [hrun]
    refine ⟨by simp, by simp [List.count_cons], by simp⟩
  · cases hcl : w.serverCloseFires
    · have hnm : ∀ e ∈ run w, e = Event.spawnProfiledChild ∨
          e = Event.killSignal Sig.SIGINT := mem_run_no_close w hen hcl
      refine ⟨fun h => ?_, ?_, ?_⟩
      · rcases hnm _ h with h1 | h1 <;> simp at h1
      · have h0 : (run w).count Event.resolveOuter = 0 := by
          rw [List.count_eq_zero]
          intro h
          rcases hnm _ h with h1 | h1 <;> simp at h1
        simp [h0]
      · constructor <;> intro h <;> exfalso <;>
          rcases hnm _ h with h1 | h1 <;> simp at h1
    · have hsag0 : Event.resolveOuter ∉ sessionAfterGlob w := by
        intro h
        rcases mem_sessionAfterGlob_cases w _ h with
          h2 | ⟨p, h2⟩ | ⟨c, h2⟩ | ⟨r, h2⟩ | h2 <;> simp at h2
      refine ⟨fun h => ?_, ?_, ?_⟩
      · rcases mem_run_close_cases w hen hcl _ h with
          h1 | h1 | h1 | h1 | h1 | h1
        · simp at h1
        · simp at h1
        · simp at h1
        · simp at h1
        · simp at h1
        · rcases mem_sessionAfterGlob_cases w _ h1 with
            h2 | ⟨p, h2⟩ | ⟨c, h2⟩ | ⟨r, h2⟩ | h2 <;> simp at h2
      · have hc : (run w).count Event.resolveOuter = 1 := by
          rw [run_enabled_close w hen hcl]
          rw [List.count_append, List.count_append]
          have h1 : (Event.spawnProfiledChild :: earlyKill w).count
              Event.resolveOuter = 0 := by
            rw [List.count_eq_zero]
            intro h
            rcases List.mem_cons.mp h with h2 | h2
            · simp at h2
            · have := mem_earlyKill w _ h2
              simp at this
          have h2 : (lateKill w).count Event.resolveOuter = 0 := by
            rw [List.count_eq_zero]
            intro h
            have := mem_lateKill w _ h
            simp at this
          have h3 : (sessionAfterGlob w).count Event.resolveOuter = 0 :=
            List.count_eq_zero.mpr hsag0
          rw [h1, h2]
          simp [List.count_cons, h3]
        simp [hc]
      · rw [run_enabled_close w hen hcl]
        constructor <;> intro _ <;> simp

end ProfileApp
